import Mathlib

/-!
Verification development for the StockTradingNotifier script (src/notify.py).

The script fetches daily stock prices, computes the day-over-day percentage
change, fetches news, composes a text message and sends it via SMS.  We give
a shallow embedding of its pure computational core:

* Python floats are modelled as exact rationals; the two-decimal rounding of
  round(x, 2) is modelled as round-half-to-even on rationals (Python's
  documented rounding mode).
* Python datetimes are modelled as integer day numbers; day 0 is a Monday, so
  weekday t = t % 7 matches Python's Monday=0 .. Sunday=6 convention.
* Raising an exception is modelled with Except; the implicit None return
  that Python produces when no branch of __get_date_days_shift fires is
  modelled by an Option inside the Except.
* The HTTP fetches are modelled by passing the provider's data (closing
  prices, article lists) as explicit arguments; the Twilio client call is
  modelled by returning the list of requests that would be submitted.
-/

namespace StockNotifier

/-- Round-half-to-even on rationals: the integer nearest to q, ties going to
the even integer.  This is Python's rounding mode for round. -/
def roundHalfEven (q : ℚ) : ℤ :=
  if q - ⌊q⌋ < 1 / 2 then ⌊q⌋
  else if 1 / 2 < q - ⌊q⌋ then ⌊q⌋ + 1
  else if 2 ∣ ⌊q⌋ then ⌊q⌋ else ⌊q⌋ + 1

/-- Model of Python's round(x, 2): round to two decimal places,
half-to-even. -/
def pyRound2 (q : ℚ) : ℚ := (roundHalfEven (q * 100) : ℚ) / 100

/-- Model of get_stock_difference (src/notify.py lines 67-74) after the two
closing prices have been looked up from the provider's daily series:

    different = round(yesterday_close - two_days_ago_close, 2)
    return round(different * 100 / yesterday_close, 2)

Python raises ZeroDivisionError on float division by zero, which we model
with Except.error. -/
def get_stock_difference (yesterday_close two_days_ago_close : ℚ) :
    Except String ℚ :=
  let different := pyRound2 (yesterday_close - two_days_ago_close)
  if yesterday_close = 0 then Except.error "float division by zero"
  else Except.ok (pyRound2 (different * 100 / yesterday_close))

/-- Modelled from the spec: the percentage change computed with a single
rounding step, round((closeYesterday - closeTwoDaysAgo) * 100 /
closeYesterday, 2), as section 4.2 of the spec words it.  Used only to be
compared against get_stock_difference. -/
def spec_percentage_change (yesterday_close two_days_ago_close : ℚ) : ℚ :=
  pyRound2 ((yesterday_close - two_days_ago_close) * 100 / yesterday_close)

/-- Python's datetime.weekday() on our day-number model of dates:
Monday = 0 .. Sunday = 6. -/
def weekday (t : ℤ) : ℤ := t % 7

/-- Model of __get_date_days_shift (src/notify.py lines 27-43).  Dates are
integer day numbers (day 0 a Monday); subtracting d models
stock_time - timedelta(days=d).  The ValueError raise is Except.error; the
value Except.ok none models Python falling off the end of the function and
returning None (which none of the weekday branches allow). -/
def get_date_days_shift (stock_time days : ℤ) : Except String (Option ℤ) :=
  if days < 1 ∨ days > 2 then
    Except.error "This function can only shift for maximum 2 days"
  else if (2 ≤ weekday stock_time ∧ weekday stock_time ≤ 5) ∨
      (weekday stock_time = 1 ∧ days = 1) then
    Except.ok (some (stock_time - days))
  else if weekday stock_time = 0 ∨ weekday stock_time = 1 then
    Except.ok (some (stock_time - (days + 2)))
  else if weekday stock_time = 6 then
    Except.ok (some (stock_time - (days + 1)))
  else
    Except.ok none

/-- Scanner for the non-greedy regular expression used in create_sms: from
the characters following a less-than sign, return the characters after the
first greater-than sign, failing at a newline (a dot does not match a
newline) or at the end of the input. -/
def findGt : List Char → Option (List Char)
  | [] => none
  | c :: cs => if c = '>' then some cs else if c = '\n' then none else findGt cs

/-- Model of re.sub applied in create_sms (src/notify.py line 107) with the
compiled pattern of line 103, on a character list: every leftmost-shortest
match, a less-than sign up to the nearest greater-than sign with no newline
between, is removed; a less-than sign that is never closed on its line is
kept verbatim. -/
def stripTagsAux (l : List Char) : List Char :=
  match l with
  | [] => []
  | c :: cs =>
    if c = '<' then
      match h : findGt cs with
      | some rest => stripTagsAux rest
      | none => c :: stripTagsAux cs
    else c :: stripTagsAux cs
termination_by l.length
decreasing_by
  · have key : ∀ (xs ys : List Char), findGt xs = some ys →
        ys.length < xs.length := by
      intro xs
      induction xs with
      | nil =>
        intro ys hy
        simp [findGt] at hy
      | cons c2 cs2 ih =>
        intro ys hy
        unfold findGt at hy
        split_ifs at hy
        · cases hy
          simp
        · exact Nat.lt_succ_of_lt (ih _ hy)
    exact Nat.lt_succ_of_lt (key cs rest h)
  · exact Nat.lt_succ_self _
  · exact Nat.lt_succ_self _

/-- String wrapper of stripTagsAux: the model of
re.sub(re.compile of a tag pattern, empty string, s). -/
def stripTags (s : String) : String := String.mk (stripTagsAux s.data)

/-- Decides whether some greater-than sign occurs before the first newline
of the list. -/
def hasGtBeforeNl : List Char → Bool
  | [] => false
  | c :: cs => if c = '>' then true else if c = '\n' then false else hasGtBeforeNl cs

/-- Decides whether the list still contains an HTML-tag pattern: a
less-than sign later closed by a greater-than sign with no newline in
between. -/
def hasTag : List Char → Bool
  | [] => false
  | c :: cs => (decide (c = '<') && hasGtBeforeNl cs) || hasTag cs

/-- String wrapper of hasTag. -/
def hasTagStr (s : String) : Bool := hasTag s.data

/-- The Brief line built for one article inside the loop of create_sms
(src/notify.py line 107): the tag-stripping substitution applied to the
whole formatted line. -/
def brief_of (description : String) : String :=
  stripTags ("Brief: " ++ description ++ "\n")

/-- Model of the formatting Python applies when interpolating the float
percentage change into the message f-string: an optional minus sign, the
integer part, a decimal point, and the fractional digits (at most two, a
single 0 when the value is integral), as Python prints a float that carries
at most two decimals. -/
def ratToStr (q : ℚ) : String :=
  let sign := if q < 0 then "-" else ""
  let a : ℚ := |q|
  let ip : ℕ := (⌊a⌋).toNat
  let hd : ℕ := (⌊a * 100⌋).toNat % 100
  let fracStr : String :=
    if hd = 0 then "0"
    else if hd % 10 = 0 then toString (hd / 10)
    else if hd < 10 then "0" ++ toString hd
    else toString hd
  sign ++ toString ip ++ "." ++ fracStr

/-- A news article as consumed by the script: the three fields of the
provider's article objects that create_sms reads. -/
structure Article where
  title : String
  description : String
  url : String

/-- Model of one iteration of the loop in create_sms (src/notify.py lines
105-109): the block appended for one article. -/
def article_block (highlight : Article) : String :=
  let headline := "Headline: " ++ highlight.title ++ "\n"
  let brief := brief_of highlight.description
  let url := "Link: " ++ highlight.url ++ "\n"
  headline ++ brief ++ url ++ "\n"

/-- Model of create_sms (src/notify.py lines 94-110). -/
def create_sms (stock_difference : ℚ) (stock_highlights : List Article)
    (company_name : String) : String :=
  let sms := company_name ++ ": " ++
    (if stock_difference > 0 then "🔺" else "🔻") ++
    ratToStr stock_difference ++ "%\n\n"
  stock_highlights.foldl (fun sms highlight => sms ++ article_block highlight) sms

/-- Model of the selection get_news (src/notify.py lines 77-91) applies to
the provider's ranked article list: it returns the slice articles[:3]. -/
def get_news (articles : List Article) : List Article := articles.take 3

/-- The two configured Twilio phone numbers read by send_message. -/
structure Config where
  TWILIO_SENDER_NUMBER : String
  TWILIO_RECEIVER_NUMBER : String

/-- One request submitted to the SMS provider. -/
structure SmsRequest where
  from_ : String
  to_ : String
  body : String

/-- Model of send_message (src/notify.py lines 113-128): the list of
requests submitted to the SMS provider for the given message. -/
def send_message (cfg : Config) (message : String) : List SmsRequest :=
  if message = "" then []
  else [⟨cfg.TWILIO_SENDER_NUMBER, cfg.TWILIO_RECEIVER_NUMBER, message⟩]

/-- The hard-coded watchlist symbols (src/notify.py line 14). -/
def STOCKS : List String := ["TSLA", "FB", "SIEGY", "AAPL", "AMZN"]

/-- The hard-coded company names (src/notify.py line 15). -/
def COMPANIES : List String :=
  ["Tesla Inc", "Facebook Inc", "SIEMENS AG", "Apple Inc", "Amazon.com Inc"]

/-- Model of one iteration of the loop in main (src/notify.py lines
135-139): closes gives, per ticker symbol, the pair of closing prices the
provider lookup produces for yesterday and the day before; articles gives
the provider's ranked article list per company query. -/
def main_step (closes : String → ℚ × ℚ) (articles : String → List Article)
    (cfg : Config) (sent : List SmsRequest) (p : String × String) :
    Except String (List SmsRequest) := do
  let stock_difference ← get_stock_difference (closes p.1).1 (closes p.1).2
  let stock_highlights := get_news (articles p.2)
  let sms := create_sms stock_difference stock_highlights p.2
  return sent ++ send_message cfg sms

/-- Model of main (src/notify.py lines 131-139): iterate the zipped
watchlist and collect the SMS requests; a failure in any step aborts the
run. -/
def main (closes : String → ℚ × ℚ) (articles : String → List Article)
    (cfg : Config) : Except String (List SmsRequest) :=
  (STOCKS.zip COMPANIES).foldlM (main_step closes articles cfg) []

/-- Helper: for a non-zero yesterday close the calculator succeeds,
returning the double-rounded value that the code computes. -/
theorem get_stock_difference_ok (y ty : ℚ) (hy : ¬ y = 0) :
    get_stock_difference y ty =
      Except.ok (pyRound2 (pyRound2 (y - ty) * 100 / y)) := by
  unfold get_stock_difference
  rw [if_neg hy]

/-- Helper: stripTagsAux on the empty list. -/
theorem stripTagsAux_nil : stripTagsAux [] = [] := by
  rw [stripTagsAux]

/-- Helper: stripTagsAux passes a character other than a less-than sign
through. -/
theorem stripTagsAux_cons_ne (c : Char) (cs : List Char) (hc : ¬ c = '<') :
    stripTagsAux (c :: cs) = c :: stripTagsAux cs := by
  rw [stripTagsAux]
  simp [hc]

/-- Helper: stripTagsAux removes a closed tag and continues after it. -/
theorem stripTagsAux_lt_some {cs rest : List Char} (h : findGt cs = some rest) :
    stripTagsAux ('<' :: cs) = stripTagsAux rest := by
  rw [stripTagsAux]
  split
  · split
    · rename_i r2 h2
      rw [h] at h2
      cases h2
      rfl
    · rename_i h2
      rw [h] at h2
      cases h2
  · rename_i h2
    exact absurd rfl h2

/-- Helper: stripTagsAux keeps a less-than sign that is never closed on its
line. -/
theorem stripTagsAux_lt_none {cs : List Char} (h : findGt cs = none) :
    stripTagsAux ('<' :: cs) = '<' :: stripTagsAux cs := by
  rw [stripTagsAux]
  split
  · split
    · rename_i r2 h2
      rw [h] at h2
      cases h2
    · rfl
  · rename_i h2
    exact absurd rfl h2

/-- Helper: findGt fails exactly when no greater-than sign occurs before the
first newline. -/
theorem findGt_none_iff {cs : List Char} :
    findGt cs = none ↔ hasGtBeforeNl cs = false := by
  induction cs with
  | nil => simp [findGt, hasGtBeforeNl]
  | cons c cs ih =>
    unfold findGt hasGtBeforeNl
    split_ifs <;> simp [ih]

/-- Helper: hasGtBeforeNl skips an ordinary character. -/
theorem hasGtBeforeNl_cons (c : Char) (cs : List Char) (h1 : ¬ c = '>')
    (h2 : ¬ c = '\n') : hasGtBeforeNl (c :: cs) = hasGtBeforeNl cs := by
  rw [hasGtBeforeNl]
  simp only [if_neg h1, if_neg h2]

/-- Helper: hasTag skips a character other than a less-than sign. -/
theorem hasTag_cons_ne (c : Char) (cs : List Char) (h : ¬ c = '<') :
    hasTag (c :: cs) = hasTag cs := by
  rw [hasTag]
  simp [h]

/-- Helper: stripTagsAux only deletes characters that lie strictly between a
less-than and a greater-than sign on one line, so a line with no
greater-than sign before its first newline still has none afterwards. -/
theorem hasGtBeforeNl_stripTagsAux (l : List Char) :
    hasGtBeforeNl l = false → hasGtBeforeNl (stripTagsAux l) = false := by
  induction l using stripTagsAux.induct with
  | case1 =>
    intro h
    rwa [stripTagsAux_nil]
  | case2 cs rest h1 ih =>
    intro h
    rw [hasGtBeforeNl_cons _ _ (by decide) (by decide)] at h
    rw [findGt_none_iff.mpr h] at h1
    cases h1
  | case3 cs h1 ih =>
    intro h
    rw [hasGtBeforeNl_cons _ _ (by decide) (by decide)] at h
    rw [stripTagsAux_lt_none h1]
    rw [hasGtBeforeNl_cons _ _ (by decide) (by decide)]
    exact ih h
  | case4 c cs hc ih =>
    intro h
    rw [stripTagsAux_cons_ne c cs hc]
    by_cases hnl : c = '\n'
    · subst hnl
      rfl
    · have hgt : ¬ c = '>' := by
        intro hgt
        subst hgt
        simp [hasGtBeforeNl] at h
      rw [hasGtBeforeNl_cons _ _ hgt hnl] at h
      rw [hasGtBeforeNl_cons _ _ hgt hnl]
      exact ih h

/-- Helper: after the substitution, no tag pattern is left anywhere in the
output. -/
theorem hasTag_stripTagsAux (l : List Char) :
    hasTag (stripTagsAux l) = false := by
  induction l using stripTagsAux.induct with
  | case1 =>
    rw [stripTagsAux_nil]
    rfl
  | case2 cs rest h1 ih =>
    rw [stripTagsAux_lt_some h1]
    exact ih
  | case3 cs h1 ih =>
    rw [stripTagsAux_lt_none h1]
    rw [show hasTag ('<' :: stripTagsAux cs) =
        (hasGtBeforeNl (stripTagsAux cs) || hasTag (stripTagsAux cs)) from rfl]
    rw [hasGtBeforeNl_stripTagsAux cs (findGt_none_iff.mp h1), ih]
    rfl
  | case4 c cs hc ih =>
    rw [stripTagsAux_cons_ne c cs hc, hasTag_cons_ne c _ hc]
    exact ih

/-- Helper: a prefix containing no less-than sign passes through the
substitution untouched. -/
theorem stripTagsAux_no_lt_append (l m : List Char)
    (h : ∀ ch ∈ l, ¬ ch = '<') :
    stripTagsAux (l ++ m) = l ++ stripTagsAux m := by
  induction l with
  | nil => rfl
  | cons c cs ih =>
    have hc : ¬ c = '<' := h c (List.mem_cons_self c cs)
    rw [List.cons_append, stripTagsAux_cons_ne c _ hc]
    rw [ih (fun ch hch => h ch (List.mem_cons_of_mem c hch))]
    rfl

/-- Helper: appending a newline does not change how findGt resolves, beyond
carrying the newline along. -/
theorem findGt_append_nl (cs : List Char) :
    findGt (cs ++ ['\n']) = Option.map (fun r => r ++ ['\n']) (findGt cs) := by
  induction cs with
  | nil => rfl
  | cons c cs ih =>
    rw [List.cons_append, findGt, findGt]
    split_ifs <;> simp [ih]

/-- Helper: a trailing newline passes through the substitution untouched. -/
theorem stripTagsAux_append_nl (l : List Char) :
    stripTagsAux (l ++ ['\n']) = stripTagsAux l ++ ['\n'] := by
  induction l using stripTagsAux.induct with
  | case1 =>
    rw [List.nil_append, stripTagsAux_nil, stripTagsAux_cons_ne _ _ (by decide),
      stripTagsAux_nil]
    rfl
  | case2 cs rest h1 ih =>
    rw [List.cons_append, stripTagsAux_lt_some h1]
    have h2 : findGt (cs ++ ['\n']) = some (rest ++ ['\n']) := by
      rw [findGt_append_nl, h1]
      rfl
    rw [stripTagsAux_lt_some h2]
    exact ih
  | case3 cs h1 ih =>
    have h2 : findGt (cs ++ ['\n']) = none := by
      rw [findGt_append_nl, h1]
      rfl
    rw [List.cons_append, stripTagsAux_lt_none h2, stripTagsAux_lt_none h1]
    rw [List.cons_append, ih]
  | case4 c cs hc ih =>
    rw [List.cons_append, stripTagsAux_cons_ne c _ hc, stripTagsAux_cons_ne c cs hc]
    rw [List.cons_append, ih]

/-- Helper: the Brief line is the literal prefix, the stripped description
and the trailing newline. -/
theorem brief_of_eq (description : String) :
    brief_of description = "Brief: " ++ stripTags description ++ "\n" := by
  refine String.ext ?_
  simp only [brief_of, stripTags, String.data_append]
  rw [List.append_assoc]
  rw [stripTagsAux_no_lt_append _ _ (by decide)]
  rw [stripTagsAux_append_nl]
  rw [List.append_assoc]

/-- Helper: the article loop of create_sms only appends to its
accumulator. -/
theorem foldl_article_block_prefix (l : List Article) :
    ∀ init : String, ∃ r,
      l.foldl (fun sms highlight => sms ++ article_block highlight) init =
        init ++ r := by
  induction l with
  | nil =>
    intro init
    exact ⟨"", (String.append_empty init).symm⟩
  | cons a t ih =>
    intro init
    obtain ⟨r, hr⟩ := ih (init ++ article_block a)
    exact ⟨article_block a ++ r, by rw [List.foldl_cons, hr, String.append_assoc]⟩

/-- Helper: every composed message starts with the header built from the
company name and the change. -/
theorem create_sms_prefix (stock_difference : ℚ)
    (stock_highlights : List Article) (company_name : String) :
    ∃ rest, create_sms stock_difference stock_highlights company_name =
      (company_name ++ ": " ++
        (if stock_difference > 0 then "🔺" else "🔻") ++
        ratToStr stock_difference ++ "%\n\n") ++ rest :=
  foldl_article_block_prefix stock_highlights _

/-- Helper: the composed message is never the empty string. -/
theorem create_sms_ne_empty (stock_difference : ℚ)
    (stock_highlights : List Article) (company_name : String) :
    ¬ create_sms stock_difference stock_highlights company_name = "" := by
  obtain ⟨r, hr⟩ :=
    create_sms_prefix stock_difference stock_highlights company_name
  intro h
  rw [hr] at h
  have h2 := congrArg String.data h
  simp [String.data_append] at h2

/-- Helper: a non-empty message is submitted as exactly one request. -/
theorem send_message_of_ne (cfg : Config) (message : String)
    (h : ¬ message = "") :
    send_message cfg message =
      [⟨cfg.TWILIO_SENDER_NUMBER, cfg.TWILIO_RECEIVER_NUMBER, message⟩] := by
  unfold send_message
  rw [if_neg h]

/-- Helper: when yesterday's close is non-zero, one main loop iteration
succeeds and appends exactly one SMS request. -/
theorem main_step_ok (closes : String → ℚ × ℚ) (articles : String → List Article)
    (cfg : Config) (sent : List SmsRequest) (p : String × String)
    (hc : ¬ (closes p.1).1 = 0) :
    ∃ r, main_step closes articles cfg sent p = Except.ok r ∧
      r.length = sent.length + 1 := by
  unfold main_step
  rw [get_stock_difference_ok _ _ hc]
  refine ⟨_, rfl, ?_⟩
  rw [send_message_of_ne cfg _ (create_sms_ne_empty _ _ _)]
  simp

/-- Helper: folding the main loop over any list of watchlist pairs succeeds
and produces one request per pair. -/
theorem foldlM_main_step_ok (closes : String → ℚ × ℚ)
    (articles : String → List Article) (cfg : Config)
    (hc : ∀ s, ¬ (closes s).1 = 0) :
    ∀ (l : List (String × String)) (acc : List SmsRequest),
      ∃ r, l.foldlM (main_step closes articles cfg) acc = Except.ok r ∧
        r.length = acc.length + l.length := by
  intro l
  induction l with
  | nil =>
    intro acc
    exact ⟨acc, rfl, by simp⟩
  | cons p t ih =>
    intro acc
    obtain ⟨r1, hr1, hl1⟩ := main_step_ok closes articles cfg acc p (hc p.1)
    obtain ⟨r, hr, hl⟩ := ih r1
    refine ⟨r, ?_, by simp [hl, hl1]; omega⟩
    rw [List.foldlM_cons, hr1]
    simpa using hr

/-- C1, counterexample: with closeYesterday = 1.111 and closeTwoDaysAgo = 1
the code returns 9.9 (it first rounds the difference 0.111 to 0.11), while
the claimed single-rounding formula gives 9.99. -/
theorem get_stock_difference_single_rounding_cex :
    get_stock_difference (1111 / 1000) 1 = Except.ok (99 / 10) ∧
      spec_percentage_change (1111 / 1000) 1 = 999 / 100 ∧
      (99 / 10 : ℚ) ≠ 999 / 100 := by
  refine ⟨?_, ?_, by norm_num⟩
  · norm_num [get_stock_difference, pyRound2, roundHalfEven]
  · norm_num [spec_percentage_change, pyRound2, roundHalfEven]

/-- C1, amended: for every non-zero closeYesterday and every closeTwoDaysAgo
the calculator returns
round(round(closeYesterday - closeTwoDaysAgo, 2) * 100 / closeYesterday, 2):
the difference is first rounded to two decimals, and the quotient is rounded
to two decimals a second time. -/
theorem get_stock_difference_double_rounding (y ty : ℚ) (hy : ¬ y = 0) :
    get_stock_difference y ty =
      Except.ok (pyRound2 (pyRound2 (y - ty) * 100 / y)) :=
  get_stock_difference_ok y ty hy

/-- C1, witness: at closeYesterday = 100, closeTwoDaysAgo = 98 the amended
formula evaluates to 2. -/
theorem get_stock_difference_double_rounding_witness :
    get_stock_difference 100 98 = Except.ok 2 := by
  rw [get_stock_difference_double_rounding 100 98 (by norm_num)]
  norm_num [pyRound2, roundHalfEven]

/-- C10: the division in the price-change calculation has no zero guard;
when the resolved yesterday date maps to a closing price of 0 the calculator
fails with Python's float division-by-zero error instead of returning a
percentage. -/
theorem get_stock_difference_zero_close :
    get_stock_difference 0 98 = Except.error "float division by zero" := by
  norm_num [get_stock_difference]

/-- C2: for every current timestamp and shift in {1, 2}, the resolver
returns the current date minus shift days when the weekday is in {2,3,4,5}
or the weekday is 1 with shift 1; the current date minus (shift + 2) days
when the weekday is 0, or 1 with shift 2; and the current date minus
(shift + 1) days otherwise, that is on weekday 6. -/
theorem get_date_days_shift_cases (t days : ℤ) (h : days = 1 ∨ days = 2) :
    get_date_days_shift t days =
      if (weekday t = 2 ∨ weekday t = 3 ∨ weekday t = 4 ∨ weekday t = 5) ∨
          (weekday t = 1 ∧ days = 1) then Except.ok (some (t - days))
      else if weekday t = 0 ∨ (weekday t = 1 ∧ days = 2) then
        Except.ok (some (t - (days + 2)))
      else Except.ok (some (t - (days + 1))) := by
  unfold get_date_days_shift weekday
  split_ifs <;>
    first
      | rfl
      | (simp only [Except.ok.injEq, Except.error.injEq, Option.some.injEq] <;> omega)
      | omega

/-- C2, witness: on a Monday (day 0) with shift 1 the resolver returns the
previous Friday, three days back. -/
theorem get_date_days_shift_cases_witness :
    get_date_days_shift 0 1 = Except.ok (some (-3)) := by
  rw [get_date_days_shift_cases 0 1 (Or.inl rfl)]
  norm_num [weekday]

/-- C3: for every current timestamp and shift in {1, 2}, the resolver
returns a date, and that date falls on a weekday Monday through Friday
(weekday 0 to 4), never on a Saturday or Sunday. -/
theorem get_date_days_shift_weekday_lt_five (t days : ℤ)
    (h : days = 1 ∨ days = 2) :
    ∃ d, get_date_days_shift t days = Except.ok (some d) ∧ weekday d < 5 := by
  unfold get_date_days_shift weekday
  split_ifs <;> first
    | (exact ⟨_, rfl, by omega⟩)
    | (exfalso; omega)

/-- C3, witness: on a Sunday (day 6) with shift 2 the resolver returns a
Monday-to-Friday date. -/
theorem get_date_days_shift_weekday_lt_five_witness :
    ∃ d, get_date_days_shift 6 2 = Except.ok (some d) ∧ weekday d < 5 :=
  get_date_days_shift_weekday_lt_five 6 2 (Or.inr rfl)

/-- C4: for every shift outside {1, 2} and every current timestamp, the
resolver fails with the invalid-argument error rather than returning a
date. -/
theorem get_date_days_shift_invalid_shift (t days : ℤ)
    (h : days < 1 ∨ 2 < days) :
    get_date_days_shift t days =
      Except.error "This function can only shift for maximum 2 days" := by
  unfold get_date_days_shift
  rw [if_pos h]

/-- C4, witness: shift 3 is rejected. -/
theorem get_date_days_shift_invalid_shift_witness :
    get_date_days_shift 0 3 =
      Except.error "This function can only shift for maximum 2 days" :=
  get_date_days_shift_invalid_shift 0 3 (Or.inr (by norm_num))

/-- C5: the composed message begins with the header: the company name, a
colon, the up arrow exactly when the change is positive and the down arrow
otherwise (zero takes the down arrow), the rendered change and a percent
sign, followed by a blank line. -/
theorem create_sms_header (stock_difference : ℚ)
    (stock_highlights : List Article) (company_name : String) :
    ∃ rest, create_sms stock_difference stock_highlights company_name =
      company_name ++ ": " ++
        (if stock_difference > 0 then "🔺" else "🔻") ++
        ratToStr stock_difference ++ "%" ++ "\n\n" ++ rest := by
  obtain ⟨r, hr⟩ :=
    create_sms_prefix stock_difference stock_highlights company_name
  refine ⟨r, ?_⟩
  rw [hr]
  refine String.ext ?_
  simp [String.data_append, List.append_assoc]

/-- C6: the Brief line the composer builds for an article is the literal
Brief prefix followed by the article's description with every HTML tag
removed, and no tag pattern (a less-than sign later closed by a
greater-than sign on the same line) survives in it. -/
theorem brief_of_strips_markup (description : String) :
    brief_of description = "Brief: " ++ stripTags description ++ "\n" ∧
      hasTagStr (brief_of description) = false :=
  ⟨brief_of_eq description, hasTag_stripTagsAux _⟩

/-- C7: the notifier performs no provider call on the empty message, and
submits exactly one request, with the configured sender and receiver
numbers, for every non-empty message. -/
theorem send_message_calls (cfg : Config) :
    send_message cfg "" = [] ∧
      ∀ message : String, ¬ message = "" →
        send_message cfg message =
          [⟨cfg.TWILIO_SENDER_NUMBER, cfg.TWILIO_RECEIVER_NUMBER, message⟩] :=
  ⟨rfl, fun m hm => send_message_of_ne cfg m hm⟩

/-- C7, witness: a concrete configuration, the empty message and a concrete
non-empty message. -/
theorem send_message_calls_witness :
    send_message ⟨"+15550100", "+15550199"⟩ "" = [] ∧
      send_message ⟨"+15550100", "+15550199"⟩ "hi" =
        [⟨"+15550100", "+15550199", "hi"⟩] :=
  ⟨(send_message_calls ⟨"+15550100", "+15550199"⟩).1,
   (send_message_calls ⟨"+15550100", "+15550199"⟩).2 "hi" (by decide)⟩

/-- C8: the news fetcher keeps a prefix of the provider's ranked list, of
length three, or the length of the whole list when it has fewer than three
entries. -/
theorem get_news_first_three (articles : List Article) :
    (∃ rest, get_news articles ++ rest = articles) ∧
      (get_news articles).length = min 3 articles.length := by
  constructor
  · exact ⟨articles.drop 3, List.take_append_drop 3 articles⟩
  · simp [get_news]

/-- C9: the composed message is never empty, so the notifier's early-return
branch is never taken on it: piping any composed message into send_message
submits exactly one request, and a full run of main over the five-symbol
watchlist (with any provider data whose yesterday closes are non-zero)
produces exactly five requests. -/
theorem create_sms_nonempty_pipeline (cfg : Config)
    (closes : String → ℚ × ℚ) (articles : String → List Article)
    (stock_difference : ℚ) (stock_highlights : List Article)
    (company_name : String) (hc : ∀ s, ¬ (closes s).1 = 0) :
    ¬ create_sms stock_difference stock_highlights company_name = "" ∧
      send_message cfg (create_sms stock_difference stock_highlights company_name) =
        [⟨cfg.TWILIO_SENDER_NUMBER, cfg.TWILIO_RECEIVER_NUMBER,
          create_sms stock_difference stock_highlights company_name⟩] ∧
      ∃ sent, main closes articles cfg = Except.ok sent ∧ sent.length = 5 := by
  refine ⟨create_sms_ne_empty _ _ _,
    send_message_of_ne cfg _ (create_sms_ne_empty _ _ _), ?_⟩
  obtain ⟨r, hr, hl⟩ :=
    foldlM_main_step_ok closes articles cfg hc (STOCKS.zip COMPANIES) []
  exact ⟨r, hr, by simpa using hl⟩

/-- C9, witness: a concrete pipeline run with constant provider data. -/
theorem create_sms_nonempty_pipeline_witness :
    ¬ create_sms 1 [] "Tesla Inc" = "" ∧
      send_message ⟨"+15550100", "+15550199"⟩ (create_sms 1 [] "Tesla Inc") =
        [⟨"+15550100", "+15550199", create_sms 1 [] "Tesla Inc"⟩] ∧
      ∃ sent, main (fun _ => (100, 98)) (fun _ => [])
          ⟨"+15550100", "+15550199"⟩ = Except.ok sent ∧ sent.length = 5 :=
  create_sms_nonempty_pipeline ⟨"+15550100", "+15550199"⟩
    (fun _ => (100, 98)) (fun _ => []) 1 [] "Tesla Inc"
    (fun _ => by norm_num)

end StockNotifier
